import Mathlib

/-!
# Verification of the VOLK kernel `volk_32f_s32f_x2_clamp_32f`

The kernel clamps every element of a float array into `[min, max]`.  It is
offered as a scalar reference strategy (`..._generic`) and four SIMD
strategies (SSE4.1 aligned/unaligned at width 4, AVX2 aligned/unaligned at
width 8), each consisting of a vector main loop plus a scalar tail loop.

The embedding below models a 32-bit float as either NaN or a finite value.
The kernel performs no floating-point arithmetic: it only compares values
(with IEEE ordered comparisons, which are false whenever an operand is NaN)
and copies values unchanged, so finite values are represented by their
numeric value, here an integer for executability; ordered comparison of two
finite floats agrees with comparison of the represented numbers.  Buffers
are lists of such values; a C loop `for (; number < n; number++)` is encoded
as structural recursion on the remaining iteration count `n - number`.
-/

namespace Volk

/-- A single-precision float as the clamp kernel observes it: NaN, or a
finite value identified by its numeric value. -/
inductive F32 where
  | nan : F32
  | fin : Int → F32
deriving DecidableEq

/-- IEEE ordered `<` on floats (`_CMP_LT_OS`, C `<` / `>` with operands
swapped): false whenever either operand is NaN. -/
def flt : F32 → F32 → Bool
  | F32.fin a, F32.fin b => decide (a < b)
  | _, _ => false

/-- IEEE ordered `<=` on floats: false whenever either operand is NaN. -/
def fle : F32 → F32 → Bool
  | F32.fin a, F32.fin b => decide (a ≤ b)
  | _, _ => false

/-- The scalar clamp expression of the reference strategy, line 190 of the
source: `(*in > max) ? max : (*in < min) ? min : *in`.  The `> max` test is
evaluated first; C's `x > max` is `flt max x`. -/
def clampScalar (mn mx x : F32) : F32 :=
  if flt mx x then mx else if flt x mn then mn else x

/-- `_mm256_set1_ps` / `_mm_set1_ps`: broadcast a scalar into all W lanes. -/
def mm_set1_ps (x : F32) (W : Nat) : List F32 :=
  List.replicate W x

/-- `_mm_cmplt_ps` / `_mm256_cmp_ps` with `_CMP_LT_OS`: lane-wise ordered
`<`, giving a lane mask. -/
def mm_cmplt_ps (a b : List F32) : List Bool :=
  List.zipWith (fun u v => flt u v) a b

/-- `_mm_blendv_ps` / `_mm256_blendv_ps`: lane-wise select, taking the
second operand where the mask is set and the first elsewhere. -/
def mm_blendv_ps : List F32 → List F32 → List Bool → List F32
  | a :: as, b :: bs, m :: ms => (if m then b else a) :: mm_blendv_ps as bs ms
  | _, _, _ => []

/-- Vector load of W contiguous lanes starting at `base`
(`_mm_load_ps` / `_mm_loadu_ps` / `_mm256_load_ps` / `_mm256_loadu_ps`). -/
def mm_load_ps (buf : List F32) (base W : Nat) : List F32 :=
  (List.range W).map fun k => buf.getD (base + k) F32.nan

/-- Vector store of the lanes of `v` to contiguous positions starting at
`base` (`_mm_store_ps` / `_mm_storeu_ps` / `_mm256_store_ps` /
`_mm256_storeu_ps`). -/
def mm_store_ps : List F32 → Nat → List F32 → List F32
  | buf, _, [] => buf
  | buf, base, x :: xs => mm_store_ps (buf.set base x) (base + 1) xs

/-- The body of one vector iteration, lines 62-66 of the source: compute
both masks from the loaded vector `res`, then blend `max` over lanes where
`vmax < res` and afterwards blend `min` over lanes where `res < vmin`. -/
def clampVecBody (vmin vmax res : List F32) : List F32 :=
  let max_mask := mm_cmplt_ps vmax res
  let min_mask := mm_cmplt_ps res vmin
  let res1 := mm_blendv_ps res vmax max_mask
  mm_blendv_ps res1 vmin min_mask

/-- What `clampVecBody` computes on a single lane holding `x`, with `mn` and
`mx` broadcast: `max`-replacement first, then `min`-replacement, both masks
taken from the original lane value. -/
def clampVecLane (mn mx x : F32) : F32 :=
  let r1 := if flt mx x then mx else x
  if flt x mn then mn else r1

/-- The scalar loop `for (; number < num_points; number++) *out++ = ...`
shared by the reference strategy and every tail loop, encoded by recursion
on the remaining iteration count: `genericLoop mn mx inBuf number k out`
runs iterations `number, number+1, ..., number+k-1`. -/
def genericLoop (mn mx : F32) (inBuf : List F32) : Nat → Nat → List F32 → List F32
  | _, 0, outBuf => outBuf
  | number, k + 1, outBuf =>
      genericLoop mn mx inBuf (number + 1) k
        (outBuf.set number (clampScalar mn mx (inBuf.getD number F32.nan)))

/-- `volk_32f_s32f_x2_clamp_32f_generic`, lines 182-194 of the source. -/
def volk_32f_s32f_x2_clamp_32f_generic (out inBuf : List F32) (mn mx : F32)
    (num_points : Nat) : List F32 :=
  genericLoop mn mx inBuf 0 num_points out

/-- The vector main loop at width `W`: iteration `number` loads lanes
`[W*number, W*number+W)`, clamps them with `clampVecBody`, and stores them
back to the same positions of the output; `k` counts remaining iterations. -/
def vecLoop (W : Nat) (mn mx : F32) (inBuf : List F32) : Nat → Nat → List F32 → List F32
  | _, 0, outBuf => outBuf
  | number, k + 1, outBuf =>
      vecLoop W mn mx inBuf (number + 1) k
        (mm_store_ps outBuf (W * number)
          (clampVecBody (mm_set1_ps mn W) (mm_set1_ps mx W)
            (mm_load_ps inBuf (W * number) W)))

/-- A width-`W` vector strategy: `num_points / W` vector iterations followed
by the scalar tail loop from index `(num_points / W) * W` up to
`num_points`.  This is the shared shape of the four SIMD functions in the
source, which differ only in `W` and in the (here unobservable) choice of
aligned versus unaligned load/store instructions. -/
def vecStrategy (W : Nat) (out inBuf : List F32) (mn mx : F32)
    (num_points : Nat) : List F32 :=
  genericLoop mn mx inBuf (num_points / W * W) (num_points - num_points / W * W)
    (vecLoop W mn mx inBuf 0 (num_points / W) out)

/-- `volk_32f_s32f_x2_clamp_32f_a_avx2`, lines 50-77: width 8, aligned. -/
def volk_32f_s32f_x2_clamp_32f_a_avx2 (out inBuf : List F32) (mn mx : F32)
    (num_points : Nat) : List F32 :=
  vecStrategy 8 out inBuf mn mx num_points

/-- `volk_32f_s32f_x2_clamp_32f_a_sse4_1`, lines 82-109: width 4, aligned. -/
def volk_32f_s32f_x2_clamp_32f_a_sse4_1 (out inBuf : List F32) (mn mx : F32)
    (num_points : Nat) : List F32 :=
  vecStrategy 4 out inBuf mn mx num_points

/-- `volk_32f_s32f_x2_clamp_32f_u_avx2`, lines 119-146: width 8, unaligned. -/
def volk_32f_s32f_x2_clamp_32f_u_avx2 (out inBuf : List F32) (mn mx : F32)
    (num_points : Nat) : List F32 :=
  vecStrategy 8 out inBuf mn mx num_points

/-- `volk_32f_s32f_x2_clamp_32f_u_sse4_1`, lines 151-178: width 4, unaligned. -/
def volk_32f_s32f_x2_clamp_32f_u_sse4_1 (out inBuf : List F32) (mn mx : F32)
    (num_points : Nat) : List F32 :=
  vecStrategy 4 out inBuf mn mx num_points

/-- The scalar loop executed with `out == in`: each iteration reads index
`number` from the buffer as updated by the previous iterations. -/
def genericLoopInPlace (mn mx : F32) : Nat → Nat → List F32 → List F32
  | _, 0, buf => buf
  | number, k + 1, buf =>
      genericLoopInPlace mn mx (number + 1) k
        (buf.set number (clampScalar mn mx (buf.getD number F32.nan)))

/-- The vector main loop executed with `out == in`: each iteration loads
from the buffer as updated by the previous iterations. -/
def vecLoopInPlace (W : Nat) (mn mx : F32) : Nat → Nat → List F32 → List F32
  | _, 0, buf => buf
  | number, k + 1, buf =>
      vecLoopInPlace W mn mx (number + 1) k
        (mm_store_ps buf (W * number)
          (clampVecBody (mm_set1_ps mn W) (mm_set1_ps mx W)
            (mm_load_ps buf (W * number) W)))

/-- `volk_32f_s32f_x2_clamp_32f_generic` called with `out == in`. -/
def generic_inplace (buf : List F32) (mn mx : F32) (num_points : Nat) : List F32 :=
  genericLoopInPlace mn mx 0 num_points buf

/-- A width-`W` vector strategy called with `out == in`. -/
def vecStrategyInPlace (W : Nat) (buf : List F32) (mn mx : F32)
    (num_points : Nat) : List F32 :=
  genericLoopInPlace mn mx (num_points / W * W) (num_points - num_points / W * W)
    (vecLoopInPlace W mn mx 0 (num_points / W) buf)

/-- `volk_32f_s32f_x2_clamp_32f_a_avx2` called with `out == in`. -/
def a_avx2_inplace (buf : List F32) (mn mx : F32) (num_points : Nat) : List F32 :=
  vecStrategyInPlace 8 buf mn mx num_points

/-- `volk_32f_s32f_x2_clamp_32f_a_sse4_1` called with `out == in`. -/
def a_sse4_1_inplace (buf : List F32) (mn mx : F32) (num_points : Nat) : List F32 :=
  vecStrategyInPlace 4 buf mn mx num_points

/-- `volk_32f_s32f_x2_clamp_32f_u_avx2` called with `out == in`. -/
def u_avx2_inplace (buf : List F32) (mn mx : F32) (num_points : Nat) : List F32 :=
  vecStrategyInPlace 8 buf mn mx num_points

/-- `volk_32f_s32f_x2_clamp_32f_u_sse4_1` called with `out == in`. -/
def u_sse4_1_inplace (buf : List F32) (mn mx : F32) (num_points : Nat) : List F32 :=
  vecStrategyInPlace 4 buf mn mx num_points

/-- Specification predicate for the main-loop/tail split of a vector
strategy `S` of width `W`: indices below `(n / W) * W` receive the two-stage
vector lane clamp, indices from there up to `n` receive the exact scalar
reference formula, and under `min <= max` every index below `n` receives the
scalar reference formula. -/
def mainTailSpec (S : List F32 → List F32 → F32 → F32 → Nat → List F32)
    (W : Nat) : Prop :=
  ∀ (out inBuf : List F32) (mn mx : F32) (n j : Nat), j < out.length →
    (j < n / W * W →
      (S out inBuf mn mx n).getD j F32.nan = clampVecLane mn mx (inBuf.getD j F32.nan)) ∧
    (n / W * W ≤ j → j < n →
      (S out inBuf mn mx n).getD j F32.nan = clampScalar mn mx (inBuf.getD j F32.nan)) ∧
    (fle mn mx = true → j < n →
      (S out inBuf mn mx n).getD j F32.nan = clampScalar mn mx (inBuf.getD j F32.nan))

/-- Sanity check: the doc-comment example of the source, `x = {-2, -1, 1, 2}`
clamped to `[-3/2, 3/2]` — scaled by 2 to stay integral: `{-4, -2, 2, 4}`
clamped to `[-3, 3]` gives `{-3, -2, 2, 3}`, on every strategy. -/
example :
    volk_32f_s32f_x2_clamp_32f_generic
        [F32.fin 0, F32.fin 0, F32.fin 0, F32.fin 0]
        [F32.fin (-4), F32.fin (-2), F32.fin 2, F32.fin 4]
        (F32.fin (-3)) (F32.fin 3) 4 =
      [F32.fin (-3), F32.fin (-2), F32.fin 2, F32.fin 3] := by decide

example :
    volk_32f_s32f_x2_clamp_32f_a_sse4_1
        [F32.fin 0, F32.fin 0, F32.fin 0, F32.fin 0]
        [F32.fin (-4), F32.fin (-2), F32.fin 2, F32.fin 4]
        (F32.fin (-3)) (F32.fin 3) 4 =
      [F32.fin (-3), F32.fin (-2), F32.fin 2, F32.fin 3] := by decide

example :
    volk_32f_s32f_x2_clamp_32f_a_avx2
        [F32.fin 0, F32.fin 0, F32.fin 0, F32.fin 0]
        [F32.fin (-4), F32.fin (-2), F32.fin 2, F32.fin 4]
        (F32.fin (-3)) (F32.fin 3) 4 =
      [F32.fin (-3), F32.fin (-2), F32.fin 2, F32.fin 3] := by decide

/-- Sanity check: NaN passes through, second spec example
`input = [NaN, 5], min = 0, max = 1` gives `[NaN, 1]`. -/
example :
    volk_32f_s32f_x2_clamp_32f_u_sse4_1
        [F32.fin 9, F32.fin 9] [F32.nan, F32.fin 5]
        (F32.fin 0) (F32.fin 1) 2 = [F32.nan, F32.fin 1] := by decide

/-- Sanity check: with `min > max` (min = 10, max = 0) and input 5, the
scalar strategy gives `max = 0` but a vector lane gives `min = 10`. -/
example :
    volk_32f_s32f_x2_clamp_32f_generic
        [F32.fin 9, F32.fin 9, F32.fin 9, F32.fin 9]
        [F32.fin 5, F32.fin 5, F32.fin 5, F32.fin 5]
        (F32.fin 10) (F32.fin 0) 4 =
      [F32.fin 0, F32.fin 0, F32.fin 0, F32.fin 0] := by decide

example :
    volk_32f_s32f_x2_clamp_32f_a_sse4_1
        [F32.fin 9, F32.fin 9, F32.fin 9, F32.fin 9]
        [F32.fin 5, F32.fin 5, F32.fin 5, F32.fin 5]
        (F32.fin 10) (F32.fin 0) 4 =
      [F32.fin 10, F32.fin 10, F32.fin 10, F32.fin 10] := by decide

/-! ## List access lemmas -/

theorem getD_set_ne (l : List F32) (v : F32) {i j : Nat} (h : i ≠ j) :
    (l.set i v).getD j F32.nan = l.getD j F32.nan := by
  induction l generalizing i j with
  | nil => simp
  | cons a as ih =>
    cases i with
    | zero =>
      cases j with
      | zero => exact absurd rfl h
      | succ j => simp
    | succ i =>
      cases j with
      | zero => simp
      | succ j =>
        have h' : i ≠ j := fun hh => h (by omega)
        simpa using ih h'

theorem getD_set_self (l : List F32) (v : F32) {i : Nat} (h : i < l.length) :
    (l.set i v).getD i F32.nan = v := by
  induction l generalizing i with
  | nil => simp at h
  | cons a as ih =>
    cases i with
    | zero => simp
    | succ i => simpa using ih (by simpa using h)

theorem getD_map_lt (f : F32 → F32) (l : List F32) {k : Nat} (h : k < l.length) :
    (l.map f).getD k F32.nan = f (l.getD k F32.nan) := by
  induction l generalizing k with
  | nil => simp at h
  | cons a as ih =>
    cases k with
    | zero => simp
    | succ k => simpa using ih (by simpa using h)

theorem eq_of_getD (l1 l2 : List F32) (hl : l1.length = l2.length)
    (h : ∀ i, i < l1.length → l1.getD i F32.nan = l2.getD i F32.nan) : l1 = l2 := by
  induction l1 generalizing l2 with
  | nil =>
    cases l2 with
    | nil => rfl
    | cons b bs => simp at hl
  | cons a as ih =>
    cases l2 with
    | nil => simp at hl
    | cons b bs =>
      have h0 := h 0 (by simp)
      simp only [List.getD_cons_zero] at h0
      have htail : as = bs :=
        ih bs (by simpa using hl)
          (fun i hi => by simpa using h (i + 1) (by simpa using hi))
      rw [h0, htail]

/-! ## Scalar loop lemmas -/

theorem genericLoop_length (mn mx : F32) (inBuf : List F32) :
    ∀ (k number : Nat) (out : List F32),
      (genericLoop mn mx inBuf number k out).length = out.length := by
  intro k
  induction k with
  | zero => intro number out; rfl
  | succ k ih =>
    intro number out
    simp only [genericLoop]
    rw [ih]
    simp

theorem genericLoop_getD_frame (mn mx : F32) (inBuf : List F32) :
    ∀ (k number : Nat) (out : List F32) (i : Nat),
      i < number ∨ number + k ≤ i →
      (genericLoop mn mx inBuf number k out).getD i F32.nan = out.getD i F32.nan := by
  intro k
  induction k with
  | zero => intro number out i _; rfl
  | succ k ih =>
    intro number out i hi
    simp only [genericLoop]
    rw [ih (number + 1) _ i (by omega)]
    exact getD_set_ne _ _ (by omega)

theorem genericLoop_getD_eq (mn mx : F32) (inBuf : List F32) :
    ∀ (k number : Nat) (out : List F32) (i : Nat),
      number ≤ i → i < number + k → i < out.length →
      (genericLoop mn mx inBuf number k out).getD i F32.nan =
        clampScalar mn mx (inBuf.getD i F32.nan) := by
  intro k
  induction k with
  | zero => intro number out i h1 h2 _; omega
  | succ k ih =>
    intro number out i h1 h2 h3
    simp only [genericLoop]
    by_cases hEq : i = number
    · subst hEq
      rw [genericLoop_getD_frame mn mx inBuf k (i + 1) _ i (Or.inl (by omega))]
      exact getD_set_self _ _ h3
    · exact ih (number + 1) _ i (by omega) (by omega) (by simpa using h3)

/-! ## Vector load/store/body lemmas -/

theorem mm_store_ps_length : ∀ (v buf : List F32) (base : Nat),
    (mm_store_ps buf base v).length = buf.length := by
  intro v
  induction v with
  | nil => intro buf base; rfl
  | cons x xs ih =>
    intro buf base
    simp only [mm_store_ps]
    rw [ih]
    simp

theorem mm_store_ps_getD_frame : ∀ (v buf : List F32) (base j : Nat),
    j < base ∨ base + v.length ≤ j →
    (mm_store_ps buf base v).getD j F32.nan = buf.getD j F32.nan := by
  intro v
  induction v with
  | nil => intro buf base j _; rfl
  | cons x xs ih =>
    intro buf base j hj
    simp only [List.length_cons] at hj
    simp only [mm_store_ps]
    rw [ih _ (base + 1) j (by omega)]
    exact getD_set_ne _ _ (by omega)

theorem mm_store_ps_getD_eq : ∀ (v buf : List F32) (base k : Nat),
    k < v.length → base + k < buf.length →
    (mm_store_ps buf base v).getD (base + k) F32.nan = v.getD k F32.nan := by
  intro v
  induction v with
  | nil => intro buf base k h _; simp at h
  | cons x xs ih =>
    intro buf base k hk hb
    simp only [List.length_cons] at hk
    simp only [mm_store_ps]
    cases k with
    | zero =>
      rw [mm_store_ps_getD_frame xs _ (base + 1) (base + 0) (Or.inl (by omega))]
      have hbase : base < buf.length := by omega
      have := getD_set_self buf x hbase
      simpa using this
    | succ k =>
      rw [(by omega : base + (k + 1) = (base + 1) + k)]
      rw [ih _ (base + 1) k (by omega) (by simp; omega)]
      simp

theorem mm_load_ps_length (buf : List F32) (base W : Nat) :
    (mm_load_ps buf base W).length = W := by
  simp [mm_load_ps]

theorem mm_load_ps_succ (buf : List F32) (base W : Nat) :
    mm_load_ps buf base (W + 1) =
      buf.getD base F32.nan :: mm_load_ps buf (base + 1) W := by
  simp only [mm_load_ps, List.range_succ_eq_map, List.map_cons, List.map_map,
    Nat.add_zero]
  congr 1
  apply List.map_congr_left
  intro k _
  show buf.getD (base + (k + 1)) F32.nan = buf.getD (base + 1 + k) F32.nan
  rw [(by omega : base + (k + 1) = base + 1 + k)]

theorem mm_load_ps_getD (buf : List F32) : ∀ (W base k : Nat), k < W →
    (mm_load_ps buf base W).getD k F32.nan = buf.getD (base + k) F32.nan := by
  intro W
  induction W with
  | zero => intro base k h; omega
  | succ W ih =>
    intro base k h
    rw [mm_load_ps_succ]
    cases k with
    | zero => simp
    | succ k =>
      rw [List.getD_cons_succ, ih (base + 1) k (by omega),
        (by omega : base + 1 + k = base + (k + 1))]

theorem clampVecBody_cons (mn mx x : F32) (n : Nat) (xs : List F32) :
    clampVecBody (mm_set1_ps mn (n + 1)) (mm_set1_ps mx (n + 1)) (x :: xs) =
      clampVecLane mn mx x ::
        clampVecBody (mm_set1_ps mn n) (mm_set1_ps mx n) xs := by
  simp [clampVecBody, mm_set1_ps, mm_cmplt_ps, mm_blendv_ps, List.replicate_succ,
    clampVecLane]

theorem clampVecBody_eq_map : ∀ (v : List F32) (mn mx : F32),
    clampVecBody (mm_set1_ps mn v.length) (mm_set1_ps mx v.length) v =
      v.map (clampVecLane mn mx) := by
  intro v
  induction v with
  | nil => intro mn mx; rfl
  | cons x xs ih =>
    intro mn mx
    rw [List.length_cons, clampVecBody_cons, ih]
    rfl

theorem clampVec_load (inBuf : List F32) (base W : Nat) (mn mx : F32) :
    clampVecBody (mm_set1_ps mn W) (mm_set1_ps mx W) (mm_load_ps inBuf base W) =
      (mm_load_ps inBuf base W).map (clampVecLane mn mx) := by
  have h := clampVecBody_eq_map (mm_load_ps inBuf base W) mn mx
  rwa [mm_load_ps_length] at h

/-! ## Vector loop lemmas -/

theorem vecLoop_length (W : Nat) (mn mx : F32) (inBuf : List F32) :
    ∀ (k number : Nat) (out : List F32),
      (vecLoop W mn mx inBuf number k out).length = out.length := by
  intro k
  induction k with
  | zero => intro number out; rfl
  | succ k ih =>
    intro number out
    simp only [vecLoop]
    rw [ih, mm_store_ps_length]

theorem vecLoop_getD_frame (W : Nat) (mn mx : F32) (inBuf : List F32) :
    ∀ (k number : Nat) (out : List F32) (j : Nat),
      j < W * number ∨ W * (number + k) ≤ j →
      (vecLoop W mn mx inBuf number k out).getD j F32.nan = out.getD j F32.nan := by
  intro k
  induction k with
  | zero => intro number out j _; rfl
  | succ k ih =>
    intro number out j hj
    rw [(by omega : number + (k + 1) = (number + 1) + k)] at hj
    have hmono0 : W * number ≤ W * (number + 1) :=
      Nat.mul_le_mul_left W (by omega)
    have hmono : W * (number + 1) ≤ W * ((number + 1) + k) :=
      Nat.mul_le_mul_left W (by omega)
    simp only [vecLoop]
    rw [ih (number + 1) _ j (by omega)]
    apply mm_store_ps_getD_frame
    rw [clampVec_load, List.length_map, mm_load_ps_length]
    have hsucc : W * number + W = W * (number + 1) := (Nat.mul_succ W number).symm
    omega

theorem vecLoop_getD_eq (W : Nat) (mn mx : F32) (inBuf : List F32) :
    ∀ (k number : Nat) (out : List F32) (j : Nat),
      W * number ≤ j → j < W * (number + k) → j < out.length →
      (vecLoop W mn mx inBuf number k out).getD j F32.nan =
        clampVecLane mn mx (inBuf.getD j F32.nan) := by
  intro k
  induction k with
  | zero =>
    intro number out j h1 h2 _
    simp only [Nat.add_zero] at h2
    omega
  | succ k ih =>
    intro number out j h1 h2 h3
    have hsucc : W * number + W = W * (number + 1) := (Nat.mul_succ W number).symm
    simp only [vecLoop]
    by_cases hg : j < W * (number + 1)
    · rw [vecLoop_getD_frame W mn mx inBuf k (number + 1) _ j (Or.inl hg)]
      obtain ⟨r, hr, hjr⟩ : ∃ r, r < W ∧ j = W * number + r :=
        ⟨j - W * number, by omega, by omega⟩
      subst hjr
      rw [mm_store_ps_getD_eq _ _ _ r ?_ ?_]
      · rw [clampVec_load]
        rw [getD_map_lt _ _ (by rw [mm_load_ps_length]; exact hr)]
        rw [mm_load_ps_getD _ _ _ _ hr]
      · rw [clampVec_load, List.length_map, mm_load_ps_length]
        exact hr
      · exact h3
    · have hrw : number + (k + 1) = (number + 1) + k := by omega
      rw [hrw] at h2
      exact ih (number + 1) _ j (by omega) h2 (by rw [mm_store_ps_length]; exact h3)

/-! ## Strategy characterizations -/

theorem generic_length (out inBuf : List F32) (mn mx : F32) (n : Nat) :
    (volk_32f_s32f_x2_clamp_32f_generic out inBuf mn mx n).length = out.length :=
  genericLoop_length mn mx inBuf n 0 out

theorem generic_getD_frame (out inBuf : List F32) (mn mx : F32) (n j : Nat)
    (hj : n ≤ j) :
    (volk_32f_s32f_x2_clamp_32f_generic out inBuf mn mx n).getD j F32.nan =
      out.getD j F32.nan :=
  genericLoop_getD_frame mn mx inBuf n 0 out j (Or.inr (by omega))

theorem generic_getD_eq (out inBuf : List F32) (mn mx : F32) (n j : Nat)
    (hj : j < n) (ho : j < out.length) :
    (volk_32f_s32f_x2_clamp_32f_generic out inBuf mn mx n).getD j F32.nan =
      clampScalar mn mx (inBuf.getD j F32.nan) :=
  genericLoop_getD_eq mn mx inBuf n 0 out j (Nat.zero_le j) (by omega) ho

theorem vecStrategy_length (W : Nat) (out inBuf : List F32) (mn mx : F32) (n : Nat) :
    (vecStrategy W out inBuf mn mx n).length = out.length := by
  unfold vecStrategy
  rw [genericLoop_length, vecLoop_length]

theorem vecStrategy_getD_frame (W : Nat) (out inBuf : List F32) (mn mx : F32)
    (n j : Nat) (hj : n ≤ j) :
    (vecStrategy W out inBuf mn mx n).getD j F32.nan = out.getD j F32.nan := by
  have hA : n / W * W ≤ n := Nat.div_mul_le_self n W
  unfold vecStrategy
  rw [genericLoop_getD_frame _ _ _ _ _ _ j (Or.inr (by omega))]
  apply vecLoop_getD_frame
  right
  rw [Nat.zero_add, Nat.mul_comm]
  omega

theorem vecStrategy_getD_main (W : Nat) (out inBuf : List F32) (mn mx : F32)
    (n j : Nat) (hj : j < n / W * W) (ho : j < out.length) :
    (vecStrategy W out inBuf mn mx n).getD j F32.nan =
      clampVecLane mn mx (inBuf.getD j F32.nan) := by
  unfold vecStrategy
  rw [genericLoop_getD_frame _ _ _ _ _ _ j (Or.inl hj)]
  exact vecLoop_getD_eq W mn mx inBuf (n / W) 0 out j (by omega)
    (by rw [Nat.zero_add, Nat.mul_comm]; exact hj) ho

theorem vecStrategy_getD_tail (W : Nat) (out inBuf : List F32) (mn mx : F32)
    (n j : Nat) (h1 : n / W * W ≤ j) (h2 : j < n) (ho : j < out.length) :
    (vecStrategy W out inBuf mn mx n).getD j F32.nan =
      clampScalar mn mx (inBuf.getD j F32.nan) := by
  have hA : n / W * W ≤ n := Nat.div_mul_le_self n W
  unfold vecStrategy
  apply genericLoop_getD_eq mn mx inBuf _ _ _ j h1 (by omega)
  rw [vecLoop_length]
  exact ho

/-! ## Per-lane equivalences -/

theorem clampVecLane_eq_clampScalar (mn mx x : F32) (h : fle mn mx = true) :
    clampVecLane mn mx x = clampScalar mn mx x := by
  cases mn with
  | nan => simp [fle] at h
  | fin b =>
    cases mx with
    | nan => simp [fle] at h
    | fin c =>
      simp only [fle, decide_eq_true_eq] at h
      cases x with
      | nan => simp [clampVecLane, clampScalar, flt]
      | fin a =>
        by_cases h1 : c < a <;> by_cases h2 : a < b <;>
          (simp [clampVecLane, clampScalar, flt, h1, h2]; try omega)

theorem clampScalar_nan (mn mx : F32) : clampScalar mn mx F32.nan = F32.nan := by
  cases mn <;> cases mx <;> simp [clampScalar, flt]

theorem clampVecLane_nan (mn mx : F32) : clampVecLane mn mx F32.nan = F32.nan := by
  cases mn <;> cases mx <;> simp [clampVecLane, flt]

theorem clampScalar_boundary (mn mx x : F32) (h : fle mn mx = true)
    (hx : x = mn ∨ x = mx) : clampScalar mn mx x = x := by
  cases mn with
  | nan => simp [fle] at h
  | fin b =>
    cases mx with
    | nan => simp [fle] at h
    | fin c =>
      simp only [fle, decide_eq_true_eq] at h
      have hcb : ¬ (c < b) := by omega
      rcases hx with hx | hx <;> (subst hx; simp [clampScalar, flt, hcb])

/-! ## In-place execution agrees with out-of-place execution -/

theorem genericLoopInPlace_eq (mn mx : F32) (inBuf : List F32) :
    ∀ (k number : Nat) (buf : List F32),
      (∀ i, number ≤ i → buf.getD i F32.nan = inBuf.getD i F32.nan) →
      genericLoopInPlace mn mx number k buf = genericLoop mn mx inBuf number k buf := by
  intro k
  induction k with
  | zero => intro number buf _; rfl
  | succ k ih =>
    intro number buf hagree
    simp only [genericLoopInPlace, genericLoop]
    rw [hagree number (le_refl number)]
    apply ih
    intro i hi
    rw [getD_set_ne _ _ (by omega)]
    exact hagree i (by omega)

theorem vecLoopInPlace_eq (W : Nat) (mn mx : F32) (inBuf : List F32) :
    ∀ (k number : Nat) (buf : List F32),
      (∀ i, W * number ≤ i → buf.getD i F32.nan = inBuf.getD i F32.nan) →
      vecLoopInPlace W mn mx number k buf = vecLoop W mn mx inBuf number k buf := by
  intro k
  induction k with
  | zero => intro number buf _; rfl
  | succ k ih =>
    intro number buf hagree
    have hload : mm_load_ps buf (W * number) W = mm_load_ps inBuf (W * number) W := by
      unfold mm_load_ps
      apply List.map_congr_left
      intro kk _
      exact hagree (W * number + kk) (Nat.le_add_right _ _)
    simp only [vecLoopInPlace, vecLoop]
    rw [hload]
    apply ih
    intro i hi
    have hsucc : W * number + W = W * (number + 1) := (Nat.mul_succ W number).symm
    have hlen : W * number + (clampVecBody (mm_set1_ps mn W) (mm_set1_ps mx W)
        (mm_load_ps inBuf (W * number) W)).length ≤ i := by
      rw [clampVec_load, List.length_map, mm_load_ps_length]
      omega
    rw [mm_store_ps_getD_frame _ _ _ i (Or.inr hlen)]
    exact hagree i (by omega)

theorem generic_inplace_eq_generic (buf : List F32) (mn mx : F32) (n : Nat) :
    generic_inplace buf mn mx n = volk_32f_s32f_x2_clamp_32f_generic buf buf mn mx n := by
  unfold generic_inplace volk_32f_s32f_x2_clamp_32f_generic
  exact genericLoopInPlace_eq mn mx buf n 0 buf (fun _ _ => rfl)

theorem vecStrategyInPlace_eq (W : Nat) (buf : List F32) (mn mx : F32) (n : Nat) :
    vecStrategyInPlace W buf mn mx n = vecStrategy W buf buf mn mx n := by
  unfold vecStrategyInPlace vecStrategy
  rw [vecLoopInPlace_eq W mn mx buf (n / W) 0 buf (fun _ _ => rfl)]
  apply genericLoopInPlace_eq
  intro i hi
  apply vecLoop_getD_frame
  right
  rw [Nat.zero_add, Nat.mul_comm]
  exact hi

theorem vecStrategy_eq_generic (W : Nat) (out inBuf : List F32) (mn mx : F32)
    (n : Nat) (h : fle mn mx = true) :
    vecStrategy W out inBuf mn mx n =
      volk_32f_s32f_x2_clamp_32f_generic out inBuf mn mx n := by
  apply eq_of_getD
  · rw [vecStrategy_length, generic_length]
  · intro i hi
    rw [vecStrategy_length] at hi
    by_cases hn : i < n
    · rw [generic_getD_eq out inBuf mn mx n i hn hi]
      by_cases hm : i < n / W * W
      · rw [vecStrategy_getD_main W out inBuf mn mx n i hm hi,
          clampVecLane_eq_clampScalar mn mx _ h]
      · exact vecStrategy_getD_tail W out inBuf mn mx n i (not_lt.mp hm) hn hi
    · rw [vecStrategy_getD_frame W out inBuf mn mx n i (not_lt.mp hn),
        generic_getD_frame out inBuf mn mx n i (not_lt.mp hn)]

theorem vecStrategy_nan (W : Nat) (out inBuf : List F32) (mn mx : F32) (n i : Nat)
    (hi : i < n) (ho : i < out.length) (hnan : inBuf.getD i F32.nan = F32.nan) :
    (vecStrategy W out inBuf mn mx n).getD i F32.nan = F32.nan := by
  by_cases hm : i < n / W * W
  · rw [vecStrategy_getD_main W out inBuf mn mx n i hm ho, hnan, clampVecLane_nan]
  · rw [vecStrategy_getD_tail W out inBuf mn mx n i (not_lt.mp hm) hi ho, hnan,
      clampScalar_nan]

theorem clampScalar_degenerate (mn mx x : F32) (hdeg : flt mx mn = true)
    (h1 : fle mn x = true) : clampScalar mn mx x = mx := by
  cases mn with
  | nan => simp [flt] at hdeg
  | fin b =>
    cases mx with
    | nan => simp [flt] at hdeg
    | fin c =>
      cases x with
      | nan => simp [fle] at h1
      | fin a =>
        simp only [flt, fle, decide_eq_true_eq] at hdeg h1
        have hca : c < a := by omega
        simp [clampScalar, flt, hca]

/-! ## Claims -/

/-- C1: For every index `i` in `[0, num_points)`, the scalar reference
strategy writes `output[i] = (input[i] > max ? max : (input[i] < min ? min :
input[i]))`, with the greater-than-max test evaluated first.  (`x > max` is
the ordered comparison `flt max x`.) -/
theorem c1_generic_ternary (out inBuf : List F32) (mn mx : F32) (n i : Nat)
    (hi : i < n) (hout : n ≤ out.length) :
    (volk_32f_s32f_x2_clamp_32f_generic out inBuf mn mx n).getD i F32.nan =
      (if flt mx (inBuf.getD i F32.nan) then mx
       else if flt (inBuf.getD i F32.nan) mn then mn
       else inBuf.getD i F32.nan) := by
  rw [generic_getD_eq out inBuf mn mx n i hi (by omega)]
  rfl

/-- Witness for C1: index 1 of a 3-element call. -/
theorem c1_generic_ternary_witness :
    1 < 3 ∧
    (volk_32f_s32f_x2_clamp_32f_generic [F32.fin 0, F32.fin 0, F32.fin 0]
        [F32.fin (-5), F32.fin 1, F32.fin 7] (F32.fin (-2)) (F32.fin 3) 3).getD 1
        F32.nan =
      (if flt (F32.fin 3)
          (([F32.fin (-5), F32.fin 1, F32.fin 7] : List F32).getD 1 F32.nan) then
        F32.fin 3
       else if flt (([F32.fin (-5), F32.fin 1, F32.fin 7] : List F32).getD 1 F32.nan)
          (F32.fin (-2)) then F32.fin (-2)
       else ([F32.fin (-5), F32.fin 1, F32.fin 7] : List F32).getD 1 F32.nan) :=
  ⟨by decide,
    c1_generic_ternary [F32.fin 0, F32.fin 0, F32.fin 0]
      [F32.fin (-5), F32.fin 1, F32.fin 7] (F32.fin (-2)) (F32.fin 3) 3 1
      (by decide) (by decide)⟩

/-- C2 as stated is false: with bounds `min = 10 > max = 0` and the finite,
non-NaN input value 5 everywhere, the SSE4.1 strategy and the scalar
reference strategy produce different outputs (the scalar ternary yields
`max`, the two-stage vector select yields `min`). -/
theorem c2_counterexample :
    volk_32f_s32f_x2_clamp_32f_a_sse4_1
        [F32.fin 9, F32.fin 9, F32.fin 9, F32.fin 9]
        [F32.fin 5, F32.fin 5, F32.fin 5, F32.fin 5]
        (F32.fin 10) (F32.fin 0) 4 ≠
      volk_32f_s32f_x2_clamp_32f_generic
        [F32.fin 9, F32.fin 9, F32.fin 9, F32.fin 9]
        [F32.fin 5, F32.fin 5, F32.fin 5, F32.fin 5]
        (F32.fin 10) (F32.fin 0) 4 := by decide

/-- C2 (amended): under the precondition `min <= max`, for every
`num_points`, every input array and every output buffer, every strategy
(4-wide SSE4.1 aligned/unaligned, 8-wide AVX2 aligned/unaligned) produces an
output array identical to the scalar reference strategy's output. -/
theorem c2_strategies_eq_generic (out inBuf : List F32) (mn mx : F32) (n : Nat)
    (h : fle mn mx = true) :
    volk_32f_s32f_x2_clamp_32f_a_sse4_1 out inBuf mn mx n =
        volk_32f_s32f_x2_clamp_32f_generic out inBuf mn mx n ∧
    volk_32f_s32f_x2_clamp_32f_u_sse4_1 out inBuf mn mx n =
        volk_32f_s32f_x2_clamp_32f_generic out inBuf mn mx n ∧
    volk_32f_s32f_x2_clamp_32f_a_avx2 out inBuf mn mx n =
        volk_32f_s32f_x2_clamp_32f_generic out inBuf mn mx n ∧
    volk_32f_s32f_x2_clamp_32f_u_avx2 out inBuf mn mx n =
        volk_32f_s32f_x2_clamp_32f_generic out inBuf mn mx n :=
  ⟨vecStrategy_eq_generic 4 out inBuf mn mx n h,
    vecStrategy_eq_generic 4 out inBuf mn mx n h,
    vecStrategy_eq_generic 8 out inBuf mn mx n h,
    vecStrategy_eq_generic 8 out inBuf mn mx n h⟩

/-- Witness for C2 (amended): nine elements (one full AVX2 group, two full
SSE groups, plus tails), bounds `[0, 2]`, values below, inside, above the
interval and NaN. -/
theorem c2_strategies_eq_generic_witness :
    fle (F32.fin 0) (F32.fin 2) = true ∧
    (volk_32f_s32f_x2_clamp_32f_a_sse4_1
        [F32.fin 9, F32.fin 9, F32.fin 9, F32.fin 9, F32.fin 9, F32.fin 9,
          F32.fin 9, F32.fin 9, F32.fin 9]
        [F32.fin (-3), F32.fin 1, F32.nan, F32.fin 5, F32.fin 0, F32.fin 2,
          F32.fin (-1), F32.fin 7, F32.fin 3]
        (F32.fin 0) (F32.fin 2) 9 =
      volk_32f_s32f_x2_clamp_32f_generic
        [F32.fin 9, F32.fin 9, F32.fin 9, F32.fin 9, F32.fin 9, F32.fin 9,
          F32.fin 9, F32.fin 9, F32.fin 9]
        [F32.fin (-3), F32.fin 1, F32.nan, F32.fin 5, F32.fin 0, F32.fin 2,
          F32.fin (-1), F32.fin 7, F32.fin 3]
        (F32.fin 0) (F32.fin 2) 9 ∧
    volk_32f_s32f_x2_clamp_32f_u_sse4_1
        [F32.fin 9, F32.fin 9, F32.fin 9, F32.fin 9, F32.fin 9, F32.fin 9,
          F32.fin 9, F32.fin 9, F32.fin 9]
        [F32.fin (-3), F32.fin 1, F32.nan, F32.fin 5, F32.fin 0, F32.fin 2,
          F32.fin (-1), F32.fin 7, F32.fin 3]
        (F32.fin 0) (F32.fin 2) 9 =
      volk_32f_s32f_x2_clamp_32f_generic
        [F32.fin 9, F32.fin 9, F32.fin 9, F32.fin 9, F32.fin 9, F32.fin 9,
          F32.fin 9, F32.fin 9, F32.fin 9]
        [F32.fin (-3), F32.fin 1, F32.nan, F32.fin 5, F32.fin 0, F32.fin 2,
          F32.fin (-1), F32.fin 7, F32.fin 3]
        (F32.fin 0) (F32.fin 2) 9 ∧
    volk_32f_s32f_x2_clamp_32f_a_avx2
        [F32.fin 9, F32.fin 9, F32.fin 9, F32.fin 9, F32.fin 9, F32.fin 9,
          F32.fin 9, F32.fin 9, F32.fin 9]
        [F32.fin (-3), F32.fin 1, F32.nan, F32.fin 5, F32.fin 0, F32.fin 2,
          F32.fin (-1), F32.fin 7, F32.fin 3]
        (F32.fin 0) (F32.fin 2) 9 =
      volk_32f_s32f_x2_clamp_32f_generic
        [F32.fin 9, F32.fin 9, F32.fin 9, F32.fin 9, F32.fin 9, F32.fin 9,
          F32.fin 9, F32.fin 9, F32.fin 9]
        [F32.fin (-3), F32.fin 1, F32.nan, F32.fin 5, F32.fin 0, F32.fin 2,
          F32.fin (-1), F32.fin 7, F32.fin 3]
        (F32.fin 0) (F32.fin 2) 9 ∧
    volk_32f_s32f_x2_clamp_32f_u_avx2
        [F32.fin 9, F32.fin 9, F32.fin 9, F32.fin 9, F32.fin 9, F32.fin 9,
          F32.fin 9, F32.fin 9, F32.fin 9]
        [F32.fin (-3), F32.fin 1, F32.nan, F32.fin 5, F32.fin 0, F32.fin 2,
          F32.fin (-1), F32.fin 7, F32.fin 3]
        (F32.fin 0) (F32.fin 2) 9 =
      volk_32f_s32f_x2_clamp_32f_generic
        [F32.fin 9, F32.fin 9, F32.fin 9, F32.fin 9, F32.fin 9, F32.fin 9,
          F32.fin 9, F32.fin 9, F32.fin 9]
        [F32.fin (-3), F32.fin 1, F32.nan, F32.fin 5, F32.fin 0, F32.fin 2,
          F32.fin (-1), F32.fin 7, F32.fin 3]
        (F32.fin 0) (F32.fin 2) 9) :=
  ⟨by decide,
    c2_strategies_eq_generic
      [F32.fin 9, F32.fin 9, F32.fin 9, F32.fin 9, F32.fin 9, F32.fin 9,
        F32.fin 9, F32.fin 9, F32.fin 9]
      [F32.fin (-3), F32.fin 1, F32.nan, F32.fin 5, F32.fin 0, F32.fin 2,
        F32.fin (-1), F32.fin 7, F32.fin 3]
      (F32.fin 0) (F32.fin 2) 9 (by decide)⟩

/-- C3: under the precondition `min <= max`, the two-stage lane-wise select
(both masks computed from the original vector, `max`-replacement first, then
`min`-replacement) yields on every lane the same result as the scalar
reference ternary expression. -/
theorem c3_two_stage_select (mn mx : F32) (v : List F32) (W : Nat)
    (hW : v.length = W) (h : fle mn mx = true) :
    clampVecBody (mm_set1_ps mn W) (mm_set1_ps mx W) v =
      v.map (clampScalar mn mx) := by
  subst hW
  rw [clampVecBody_eq_map]
  apply List.map_congr_left
  intro x _
  exact clampVecLane_eq_clampScalar mn mx x h

/-- Witness for C3: a 4-lane vector with values below, inside, above the
bounds, and NaN. -/
theorem c3_two_stage_select_witness :
    ([F32.fin (-7), F32.fin 1, F32.fin 4, F32.nan] : List F32).length = 4 ∧
    fle (F32.fin 0) (F32.fin 2) = true ∧
    clampVecBody (mm_set1_ps (F32.fin 0) 4) (mm_set1_ps (F32.fin 2) 4)
        [F32.fin (-7), F32.fin 1, F32.fin 4, F32.nan] =
      ([F32.fin (-7), F32.fin 1, F32.fin 4, F32.nan] : List F32).map
        (clampScalar (F32.fin 0) (F32.fin 2)) :=
  ⟨by decide, by decide,
    c3_two_stage_select (F32.fin 0) (F32.fin 2)
      [F32.fin (-7), F32.fin 1, F32.fin 4, F32.nan] 4 (by decide) (by decide)⟩

/-- C4: for every strategy, a NaN input element is copied through unchanged
(both ordered comparisons are false), so the output element is NaN. -/
theorem c4_nan_passthrough (out inBuf : List F32) (mn mx : F32) (n i : Nat)
    (hi : i < n) (hout : n ≤ out.length)
    (hnan : inBuf.getD i F32.nan = F32.nan) :
    (volk_32f_s32f_x2_clamp_32f_generic out inBuf mn mx n).getD i F32.nan =
        F32.nan ∧
    (volk_32f_s32f_x2_clamp_32f_a_sse4_1 out inBuf mn mx n).getD i F32.nan =
        F32.nan ∧
    (volk_32f_s32f_x2_clamp_32f_u_sse4_1 out inBuf mn mx n).getD i F32.nan =
        F32.nan ∧
    (volk_32f_s32f_x2_clamp_32f_a_avx2 out inBuf mn mx n).getD i F32.nan =
        F32.nan ∧
    (volk_32f_s32f_x2_clamp_32f_u_avx2 out inBuf mn mx n).getD i F32.nan =
        F32.nan := by
  have ho : i < out.length := by omega
  refine ⟨?_, vecStrategy_nan 4 out inBuf mn mx n i hi ho hnan,
    vecStrategy_nan 4 out inBuf mn mx n i hi ho hnan,
    vecStrategy_nan 8 out inBuf mn mx n i hi ho hnan,
    vecStrategy_nan 8 out inBuf mn mx n i hi ho hnan⟩
  rw [generic_getD_eq out inBuf mn mx n i hi ho, hnan, clampScalar_nan]

/-- Witness for C4: NaN at index 2 of a 5-element call (a main-loop lane for
the SSE strategies, a tail element for the AVX2 strategies). -/
theorem c4_nan_passthrough_witness :
    2 < 5 ∧
    ((volk_32f_s32f_x2_clamp_32f_generic
        [F32.fin 9, F32.fin 9, F32.fin 9, F32.fin 9, F32.fin 9]
        [F32.fin 1, F32.fin 5, F32.nan, F32.fin (-5), F32.fin 0]
        (F32.fin 0) (F32.fin 2) 5).getD 2 F32.nan = F32.nan ∧
    (volk_32f_s32f_x2_clamp_32f_a_sse4_1
        [F32.fin 9, F32.fin 9, F32.fin 9, F32.fin 9, F32.fin 9]
        [F32.fin 1, F32.fin 5, F32.nan, F32.fin (-5), F32.fin 0]
        (F32.fin 0) (F32.fin 2) 5).getD 2 F32.nan = F32.nan ∧
    (volk_32f_s32f_x2_clamp_32f_u_sse4_1
        [F32.fin 9, F32.fin 9, F32.fin 9, F32.fin 9, F32.fin 9]
        [F32.fin 1, F32.fin 5, F32.nan, F32.fin (-5), F32.fin 0]
        (F32.fin 0) (F32.fin 2) 5).getD 2 F32.nan = F32.nan ∧
    (volk_32f_s32f_x2_clamp_32f_a_avx2
        [F32.fin 9, F32.fin 9, F32.fin 9, F32.fin 9, F32.fin 9]
        [F32.fin 1, F32.fin 5, F32.nan, F32.fin (-5), F32.fin 0]
        (F32.fin 0) (F32.fin 2) 5).getD 2 F32.nan = F32.nan ∧
    (volk_32f_s32f_x2_clamp_32f_u_avx2
        [F32.fin 9, F32.fin 9, F32.fin 9, F32.fin 9, F32.fin 9]
        [F32.fin 1, F32.fin 5, F32.nan, F32.fin (-5), F32.fin 0]
        (F32.fin 0) (F32.fin 2) 5).getD 2 F32.nan = F32.nan) :=
  ⟨by decide,
    c4_nan_passthrough
      [F32.fin 9, F32.fin 9, F32.fin 9, F32.fin 9, F32.fin 9]
      [F32.fin 1, F32.fin 5, F32.nan, F32.fin (-5), F32.fin 0]
      (F32.fin 0) (F32.fin 2) 5 2 (by decide) (by decide) (by decide)⟩

/-- C5 as stated is false: with `min = 10 > max = 0` and the same input
value 5 at every index, the SSE4.1 strategy at `num_points = 5` clamps the
remainder element (index 4, scalar tail, giving `max`) differently from the
main-loop elements (indices 0-3, two-stage select, giving `min`). -/
theorem c5_counterexample :
    ([F32.fin 5, F32.fin 5, F32.fin 5, F32.fin 5, F32.fin 5] : List F32).getD 4
        F32.nan =
      ([F32.fin 5, F32.fin 5, F32.fin 5, F32.fin 5, F32.fin 5] : List F32).getD 0
        F32.nan ∧
    (volk_32f_s32f_x2_clamp_32f_a_sse4_1
        [F32.fin 9, F32.fin 9, F32.fin 9, F32.fin 9, F32.fin 9]
        [F32.fin 5, F32.fin 5, F32.fin 5, F32.fin 5, F32.fin 5]
        (F32.fin 10) (F32.fin 0) 5).getD 4 F32.nan ≠
      (volk_32f_s32f_x2_clamp_32f_a_sse4_1
        [F32.fin 9, F32.fin 9, F32.fin 9, F32.fin 9, F32.fin 9]
        [F32.fin 5, F32.fin 5, F32.fin 5, F32.fin 5, F32.fin 5]
        (F32.fin 10) (F32.fin 0) 5).getD 0 F32.nan := by decide

/-- C5 (amended): for every vector strategy of width W, the main loop
processes exactly `floor(num_points / W)` groups of W elements by the
two-stage lane clamp, the remaining `num_points mod W` elements are
processed by the exact scalar reference formula, and — under the
precondition `min <= max` — the remainder elements are clamped identically
to the main-loop elements (every element receives the scalar reference
formula). -/
theorem c5_main_tail :
    mainTailSpec volk_32f_s32f_x2_clamp_32f_a_avx2 8 ∧
    mainTailSpec volk_32f_s32f_x2_clamp_32f_u_avx2 8 ∧
    mainTailSpec volk_32f_s32f_x2_clamp_32f_a_sse4_1 4 ∧
    mainTailSpec volk_32f_s32f_x2_clamp_32f_u_sse4_1 4 := by
  have key : ∀ W, mainTailSpec (vecStrategy W) W := by
    intro W out inBuf mn mx n j ho
    refine ⟨fun hm => vecStrategy_getD_main W out inBuf mn mx n j hm ho,
      fun h1 h2 => vecStrategy_getD_tail W out inBuf mn mx n j h1 h2 ho,
      fun hle hn => ?_⟩
    by_cases hm : j < n / W * W
    · rw [vecStrategy_getD_main W out inBuf mn mx n j hm ho]
      exact clampVecLane_eq_clampScalar mn mx _ hle
    · exact vecStrategy_getD_tail W out inBuf mn mx n j (not_lt.mp hm) hn ho
  exact ⟨key 8, key 8, key 4, key 4⟩

/-- Witness for C5: at `num_points = 9` and width 8, index 8 is a remainder
element and receives the scalar reference formula. -/
theorem c5_main_tail_witness :
    8 < ([F32.fin 9, F32.fin 9, F32.fin 9, F32.fin 9, F32.fin 9, F32.fin 9,
        F32.fin 9, F32.fin 9, F32.fin 9] : List F32).length ∧
    9 / 8 * 8 ≤ 8 ∧ 8 < 9 ∧
    (volk_32f_s32f_x2_clamp_32f_a_avx2
        [F32.fin 9, F32.fin 9, F32.fin 9, F32.fin 9, F32.fin 9, F32.fin 9,
          F32.fin 9, F32.fin 9, F32.fin 9]
        [F32.fin 1, F32.fin 1, F32.fin 1, F32.fin 1, F32.fin 1, F32.fin 1,
          F32.fin 1, F32.fin 1, F32.fin 7]
        (F32.fin 0) (F32.fin 2) 9).getD 8 F32.nan =
      clampScalar (F32.fin 0) (F32.fin 2)
        (([F32.fin 1, F32.fin 1, F32.fin 1, F32.fin 1, F32.fin 1, F32.fin 1,
          F32.fin 1, F32.fin 1, F32.fin 7] : List F32).getD 8 F32.nan) :=
  ⟨by decide, by decide, by decide,
    (c5_main_tail.1
      [F32.fin 9, F32.fin 9, F32.fin 9, F32.fin 9, F32.fin 9, F32.fin 9,
        F32.fin 9, F32.fin 9, F32.fin 9]
      [F32.fin 1, F32.fin 1, F32.fin 1, F32.fin 1, F32.fin 1, F32.fin 1,
        F32.fin 1, F32.fin 1, F32.fin 7]
      (F32.fin 0) (F32.fin 2) 9 8 (by decide)).2.1 (by decide) (by decide)⟩

/-- C6: for every strategy, calling with the output buffer aliasing the
input buffer yields the same final contents as calling with disjoint
buffers holding the same initial values. -/
theorem c6_inplace_eq (buf : List F32) (mn mx : F32) (n : Nat) :
    generic_inplace buf mn mx n =
        volk_32f_s32f_x2_clamp_32f_generic buf buf mn mx n ∧
    a_sse4_1_inplace buf mn mx n =
        volk_32f_s32f_x2_clamp_32f_a_sse4_1 buf buf mn mx n ∧
    u_sse4_1_inplace buf mn mx n =
        volk_32f_s32f_x2_clamp_32f_u_sse4_1 buf buf mn mx n ∧
    a_avx2_inplace buf mn mx n =
        volk_32f_s32f_x2_clamp_32f_a_avx2 buf buf mn mx n ∧
    u_avx2_inplace buf mn mx n =
        volk_32f_s32f_x2_clamp_32f_u_avx2 buf buf mn mx n :=
  ⟨generic_inplace_eq_generic buf mn mx n, vecStrategyInPlace_eq 4 buf mn mx n,
    vecStrategyInPlace_eq 4 buf mn mx n, vecStrategyInPlace_eq 8 buf mn mx n,
    vecStrategyInPlace_eq 8 buf mn mx n⟩

/-- C7 as stated is false: with `min = 1 > max = 0` and an input element
bit-exactly equal to `max` (the value 0), the scalar reference strategy
replaces it by `min = 1` instead of leaving it unchanged. -/
theorem c7_counterexample :
    ([F32.fin 0] : List F32).getD 0 F32.nan = F32.fin 0 ∧
    (volk_32f_s32f_x2_clamp_32f_generic [F32.fin 7] [F32.fin 0]
        (F32.fin 1) (F32.fin 0) 1).getD 0 F32.nan ≠ F32.fin 0 := by decide

/-- C7 (amended): under the precondition `min <= max`, for every strategy,
an input element exactly equal to `min` or to `max` is left unchanged: both
bounds are inclusive. -/
theorem c7_boundary (out inBuf : List F32) (mn mx : F32) (n i : Nat)
    (h : fle mn mx = true) (hi : i < n) (hout : n ≤ out.length)
    (hx : inBuf.getD i F32.nan = mn ∨ inBuf.getD i F32.nan = mx) :
    (volk_32f_s32f_x2_clamp_32f_generic out inBuf mn mx n).getD i F32.nan =
        inBuf.getD i F32.nan ∧
    (volk_32f_s32f_x2_clamp_32f_a_sse4_1 out inBuf mn mx n).getD i F32.nan =
        inBuf.getD i F32.nan ∧
    (volk_32f_s32f_x2_clamp_32f_u_sse4_1 out inBuf mn mx n).getD i F32.nan =
        inBuf.getD i F32.nan ∧
    (volk_32f_s32f_x2_clamp_32f_a_avx2 out inBuf mn mx n).getD i F32.nan =
        inBuf.getD i F32.nan ∧
    (volk_32f_s32f_x2_clamp_32f_u_avx2 out inBuf mn mx n).getD i F32.nan =
        inBuf.getD i F32.nan := by
  have ho : i < out.length := by omega
  have hcs : clampScalar mn mx (inBuf.getD i F32.nan) = inBuf.getD i F32.nan :=
    clampScalar_boundary _ _ _ h hx
  have hvec : ∀ W, (vecStrategy W out inBuf mn mx n).getD i F32.nan =
      inBuf.getD i F32.nan := by
    intro W
    by_cases hm : i < n / W * W
    · rw [vecStrategy_getD_main W out inBuf mn mx n i hm ho,
        clampVecLane_eq_clampScalar mn mx _ h, hcs]
    · rw [vecStrategy_getD_tail W out inBuf mn mx n i (not_lt.mp hm) hi ho, hcs]
  exact ⟨by rw [generic_getD_eq out inBuf mn mx n i hi ho, hcs],
    hvec 4, hvec 4, hvec 8, hvec 8⟩

/-- Witness for C7: the element at index 1 equals `max = 2` and survives
every strategy unchanged. -/
theorem c7_boundary_witness :
    fle (F32.fin 0) (F32.fin 2) = true ∧ 1 < 2 ∧
    (([F32.fin 1, F32.fin 2] : List F32).getD 1 F32.nan = F32.fin 0 ∨
      ([F32.fin 1, F32.fin 2] : List F32).getD 1 F32.nan = F32.fin 2) ∧
    ((volk_32f_s32f_x2_clamp_32f_generic [F32.fin 9, F32.fin 9]
        [F32.fin 1, F32.fin 2] (F32.fin 0) (F32.fin 2) 2).getD 1 F32.nan =
        ([F32.fin 1, F32.fin 2] : List F32).getD 1 F32.nan ∧
    (volk_32f_s32f_x2_clamp_32f_a_sse4_1 [F32.fin 9, F32.fin 9]
        [F32.fin 1, F32.fin 2] (F32.fin 0) (F32.fin 2) 2).getD 1 F32.nan =
        ([F32.fin 1, F32.fin 2] : List F32).getD 1 F32.nan ∧
    (volk_32f_s32f_x2_clamp_32f_u_sse4_1 [F32.fin 9, F32.fin 9]
        [F32.fin 1, F32.fin 2] (F32.fin 0) (F32.fin 2) 2).getD 1 F32.nan =
        ([F32.fin 1, F32.fin 2] : List F32).getD 1 F32.nan ∧
    (volk_32f_s32f_x2_clamp_32f_a_avx2 [F32.fin 9, F32.fin 9]
        [F32.fin 1, F32.fin 2] (F32.fin 0) (F32.fin 2) 2).getD 1 F32.nan =
        ([F32.fin 1, F32.fin 2] : List F32).getD 1 F32.nan ∧
    (volk_32f_s32f_x2_clamp_32f_u_avx2 [F32.fin 9, F32.fin 9]
        [F32.fin 1, F32.fin 2] (F32.fin 0) (F32.fin 2) 2).getD 1 F32.nan =
        ([F32.fin 1, F32.fin 2] : List F32).getD 1 F32.nan) :=
  ⟨by decide, by decide, by decide,
    c7_boundary [F32.fin 9, F32.fin 9] [F32.fin 1, F32.fin 2]
      (F32.fin 0) (F32.fin 2) 2 1 (by decide) (by decide) (by decide)
      (by decide)⟩

/-- C8: in the degenerate case `min > max`, the scalar reference strategy
returns `max` for every input element that is ordered-`>=` both bounds,
because the greater-than-max branch fires first. -/
theorem c8_degenerate_max (out inBuf : List F32) (mn mx : F32) (n i : Nat)
    (hdeg : flt mx mn = true)
    (hge_min : fle mn (inBuf.getD i F32.nan) = true)
    (_hge_max : fle mx (inBuf.getD i F32.nan) = true)
    (hi : i < n) (hout : n ≤ out.length) :
    (volk_32f_s32f_x2_clamp_32f_generic out inBuf mn mx n).getD i F32.nan = mx := by
  rw [generic_getD_eq out inBuf mn mx n i hi (by omega)]
  exact clampScalar_degenerate mn mx _ hdeg hge_min

/-- Witness for C8: `min = 10 > max = 0`, input value 20 is at least both
bounds; the output is `max = 0`. -/
theorem c8_degenerate_max_witness :
    flt (F32.fin 0) (F32.fin 10) = true ∧
    fle (F32.fin 10) (([F32.fin 20] : List F32).getD 0 F32.nan) = true ∧
    fle (F32.fin 0) (([F32.fin 20] : List F32).getD 0 F32.nan) = true ∧
    (volk_32f_s32f_x2_clamp_32f_generic [F32.fin 9] [F32.fin 20]
        (F32.fin 10) (F32.fin 0) 1).getD 0 F32.nan = F32.fin 0 :=
  ⟨by decide, by decide, by decide,
    c8_degenerate_max [F32.fin 9] [F32.fin 20] (F32.fin 10) (F32.fin 0) 1 0
      (by decide) (by decide) (by decide) (by decide) (by decide)⟩

/-- C9: no strategy writes any output element at an index at or beyond
`num_points` (lengths are preserved and such elements keep their prior
values), and a call with `num_points = 0` returns the output buffer
entirely unchanged, whatever the input buffer holds. -/
theorem c9_frame (out inBuf : List F32) (mn mx : F32) (n : Nat) :
    ((volk_32f_s32f_x2_clamp_32f_generic out inBuf mn mx n).length = out.length ∧
      (volk_32f_s32f_x2_clamp_32f_a_sse4_1 out inBuf mn mx n).length = out.length ∧
      (volk_32f_s32f_x2_clamp_32f_u_sse4_1 out inBuf mn mx n).length = out.length ∧
      (volk_32f_s32f_x2_clamp_32f_a_avx2 out inBuf mn mx n).length = out.length ∧
      (volk_32f_s32f_x2_clamp_32f_u_avx2 out inBuf mn mx n).length = out.length) ∧
    (∀ j, n ≤ j →
      (volk_32f_s32f_x2_clamp_32f_generic out inBuf mn mx n).getD j F32.nan =
          out.getD j F32.nan ∧
      (volk_32f_s32f_x2_clamp_32f_a_sse4_1 out inBuf mn mx n).getD j F32.nan =
          out.getD j F32.nan ∧
      (volk_32f_s32f_x2_clamp_32f_u_sse4_1 out inBuf mn mx n).getD j F32.nan =
          out.getD j F32.nan ∧
      (volk_32f_s32f_x2_clamp_32f_a_avx2 out inBuf mn mx n).getD j F32.nan =
          out.getD j F32.nan ∧
      (volk_32f_s32f_x2_clamp_32f_u_avx2 out inBuf mn mx n).getD j F32.nan =
          out.getD j F32.nan) ∧
    (volk_32f_s32f_x2_clamp_32f_generic out inBuf mn mx 0 = out ∧
      volk_32f_s32f_x2_clamp_32f_a_sse4_1 out inBuf mn mx 0 = out ∧
      volk_32f_s32f_x2_clamp_32f_u_sse4_1 out inBuf mn mx 0 = out ∧
      volk_32f_s32f_x2_clamp_32f_a_avx2 out inBuf mn mx 0 = out ∧
      volk_32f_s32f_x2_clamp_32f_u_avx2 out inBuf mn mx 0 = out) :=
  ⟨⟨generic_length out inBuf mn mx n, vecStrategy_length 4 out inBuf mn mx n,
      vecStrategy_length 4 out inBuf mn mx n, vecStrategy_length 8 out inBuf mn mx n,
      vecStrategy_length 8 out inBuf mn mx n⟩,
    fun j hj =>
      ⟨generic_getD_frame out inBuf mn mx n j hj,
        vecStrategy_getD_frame 4 out inBuf mn mx n j hj,
        vecStrategy_getD_frame 4 out inBuf mn mx n j hj,
        vecStrategy_getD_frame 8 out inBuf mn mx n j hj,
        vecStrategy_getD_frame 8 out inBuf mn mx n j hj⟩,
    ⟨rfl, rfl, rfl, rfl, rfl⟩⟩

/-- Witness for C9: at `num_points = 1` with a 2-element output buffer,
index 1 keeps its prior value on every strategy. -/
theorem c9_frame_witness :
    1 ≤ 1 ∧
    ((volk_32f_s32f_x2_clamp_32f_generic [F32.fin 7, F32.fin 8]
        [F32.fin 5, F32.fin 6] (F32.fin 0) (F32.fin 3) 1).getD 1 F32.nan =
        ([F32.fin 7, F32.fin 8] : List F32).getD 1 F32.nan ∧
    (volk_32f_s32f_x2_clamp_32f_a_sse4_1 [F32.fin 7, F32.fin 8]
        [F32.fin 5, F32.fin 6] (F32.fin 0) (F32.fin 3) 1).getD 1 F32.nan =
        ([F32.fin 7, F32.fin 8] : List F32).getD 1 F32.nan ∧
    (volk_32f_s32f_x2_clamp_32f_u_sse4_1 [F32.fin 7, F32.fin 8]
        [F32.fin 5, F32.fin 6] (F32.fin 0) (F32.fin 3) 1).getD 1 F32.nan =
        ([F32.fin 7, F32.fin 8] : List F32).getD 1 F32.nan ∧
    (volk_32f_s32f_x2_clamp_32f_a_avx2 [F32.fin 7, F32.fin 8]
        [F32.fin 5, F32.fin 6] (F32.fin 0) (F32.fin 3) 1).getD 1 F32.nan =
        ([F32.fin 7, F32.fin 8] : List F32).getD 1 F32.nan ∧
    (volk_32f_s32f_x2_clamp_32f_u_avx2 [F32.fin 7, F32.fin 8]
        [F32.fin 5, F32.fin 6] (F32.fin 0) (F32.fin 3) 1).getD 1 F32.nan =
        ([F32.fin 7, F32.fin 8] : List F32).getD 1 F32.nan) :=
  ⟨by decide,
    (c9_frame [F32.fin 7, F32.fin 8] [F32.fin 5, F32.fin 6]
      (F32.fin 0) (F32.fin 3) 1).2.1 1 (by decide)⟩

/-- C10: under the precondition `min <= max`, the scalar per-element clamp
is idempotent for every value, NaN included. -/
theorem c10_clamp_idempotent (mn mx x : F32) (h : fle mn mx = true) :
    clampScalar mn mx (clampScalar mn mx x) = clampScalar mn mx x := by
  cases mn with
  | nan => simp [fle] at h
  | fin b =>
    cases mx with
    | nan => simp [fle] at h
    | fin c =>
      simp only [fle, decide_eq_true_eq] at h
      cases x with
      | nan => simp [clampScalar, flt]
      | fin a =>
        by_cases h1 : c < a
        · have hcc : ¬ (c < c) := by omega
          have hcb : ¬ (c < b) := by omega
          simp [clampScalar, flt, h1, hcc, hcb]
        · by_cases h2 : a < b
          · have hbb : ¬ (b < b) := by omega
            have hcb : ¬ (c < b) := by omega
            simp [clampScalar, flt, h1, h2, hcb, hbb]
          · simp [clampScalar, flt, h1, h2]

/-- Witness for C10: clamping NaN twice into `[0, 2]` equals clamping it
once. -/
theorem c10_clamp_idempotent_witness :
    fle (F32.fin 0) (F32.fin 2) = true ∧
    clampScalar (F32.fin 0) (F32.fin 2)
        (clampScalar (F32.fin 0) (F32.fin 2) F32.nan) =
      clampScalar (F32.fin 0) (F32.fin 2) F32.nan :=
  ⟨by decide, c10_clamp_idempotent (F32.fin 0) (F32.fin 2) F32.nan (by decide)⟩

end Volk
